import Mathlib

/-!
Verification development for the DC2_Repo notebook collection.

The repository consists of five Jupyter notebooks:
  N1 "LSST_Stack_matching_code"  : positional matching of coadd/src catalogs
     against rotated protoDC2 galaxy truth (RegionSelector, make_SourceCatalog,
     afw_table.matchRaDec);
  N2 "DC2_Truth_Catalog_Info"    : truth-catalog access with healpix and
     angular-distance row filters (filter_on_healpix, filter_on_dist);
  N3 "Plotting_Cluster_Members"  : cluster-member selection and plotting via GCR;
  N4 "Match_truth_and_coadd"     : FoF matching of truth and coadd catalogs with
     the bincount/reshape group-count histogram (hist_2d);
  N5 "Coadd_Catalogs"            : merged tract-patch coadd catalog read with
     pandas, SNR selections (good_snr, bright_stars) and color-color plots.

The definitions below are shallow embeddings of the notebook code.  Floating
point numbers are modelled by rationals, numpy arrays by lists, and the data
structures returned by external libraries (GCR catalogs, the FieldRotator, the
angular separation routine, healpy pixel lists, the FoF result table) are taken
as explicit parameters or as transcribed inventories of the calls the
notebooks make.
-/

namespace DC2

/-! ## Inventories of library usage

These definitions transcribe, cell by cell, which algorithmic operations,
catalog-loading calls, assertions and error-handling constructs appear in the
five notebooks.  Each entry cites its source location.
-/

/-- Kind of a heavy-lifting algorithmic operation invoked by a notebook. -/
inductive AlgKind
  | positional_matching
  | fof_grouping
  | coord_transform
deriving DecidableEq

/-- A heavy-lifting operation performed by a notebook: the call, its kind, the
module providing the implementation, and whether that module is part of this
repository (as opposed to an external installed library). -/
structure AlgOp where
  opName : String
  kind : AlgKind
  provider : String
  provider_in_repo : Bool
deriving DecidableEq

/-- Every positional-matching, friends-of-friends and coordinate-transform
operation performed by the notebooks.

All providers are external installed packages, with one exception: N1 imports
FieldRotator with the statement "from Matching.fieldRotator import FieldRotator",
and its accompanying text states that this code "would be imported from the
LSSTDESC/sims_GCRCatSimInterface package, but we include it here" - the field
rotation implementation is a module inside this repository. -/
def heavy_ops : List AlgOp :=
  [⟨"afw_table.matchRaDec", AlgKind.positional_matching, "lsst.afw.table", false⟩,
   ⟨"FoFCatalogMatching.match", AlgKind.fof_grouping, "FoFCatalogMatching", false⟩,
   ⟨"FieldRotator.transform", AlgKind.coord_transform, "Matching.fieldRotator", true⟩,
   ⟨"wcs.pixelToSky", AlgKind.coord_transform, "lsst.afw.geom", false⟩,
   ⟨"healpy.query_disc", AlgKind.coord_transform, "healpy", false⟩,
   ⟨"angularSeparation", AlgKind.coord_transform, "lsst.sims.utils", false⟩,
   ⟨"SkyCoord.separation", AlgKind.coord_transform, "astropy.coordinates", false⟩]

/-- The entry of heavy_ops recording the protoDC2 field rotation. -/
def fieldRotator_op : AlgOp :=
  ⟨"FieldRotator.transform", AlgKind.coord_transform, "Matching.fieldRotator", true⟩

/-- Mechanism by which a notebook obtains catalog data. -/
inductive LoadMech
  | gcr_load_catalog
  | butler_get
  | pandas_read_hdf
  | pandas_read_table
deriving DecidableEq

/-- The catalog-data loading operations of one notebook, in source order. -/
structure NotebookLoads where
  notebook : String
  loads : List LoadMech
deriving DecidableEq

/-- Catalog-data loads of the five notebooks, transcribed from the source:
N1 retrieves src/coadd measurement catalogs through the data butler
(butler.get) and the galaxy truth through GCRCatalogs.load_catalog;
N2 and N3 load one GCR catalog each; N4 loads three GCR catalogs
(coadd, truth, extragalactic); N5 loads its merged tract-patch catalog with
pd.read_hdf and the Davenport stellar-locus table with pd.read_table, and
makes no GCR call at all. -/
def notebook_loads : List NotebookLoads :=
  [⟨"LSST_Stack_matching_code", [LoadMech.butler_get, LoadMech.gcr_load_catalog]⟩,
   ⟨"DC2_Truth_Catalog_Info", [LoadMech.gcr_load_catalog]⟩,
   ⟨"Plotting_Cluster_Members", [LoadMech.gcr_load_catalog]⟩,
   ⟨"Match_truth_and_coadd",
     [LoadMech.gcr_load_catalog, LoadMech.gcr_load_catalog, LoadMech.gcr_load_catalog]⟩,
   ⟨"Coadd_Catalogs", [LoadMech.pandas_read_hdf, LoadMech.pandas_read_table]⟩]

/-- An operation in a notebook that asserts a deterministic relation on data
the notebook has computed. -/
structure NotebookAssertion where
  notebook : String
  description : String
deriving DecidableEq

/-- The assertions present in the notebooks: exactly one, the
np.testing.assert_array_equal call of N4 checking that after the left merge of
the matched truth objects with the extragalactic catalog, the object_id column
equals the galaxy_id column. -/
def notebook_assertions : List NotebookAssertion :=
  [⟨"Match_truth_and_coadd",
    "np.testing.assert_array_equal(matched_gals[object_id], matched_gals[galaxy_id])"⟩]

/-- Kind of an error-related construct. -/
inductive ErrKind
  | warnings_suppress
  | exception_handler
  | retry_loop
deriving DecidableEq

/-- An error-handling construct appearing in a notebook. -/
structure ErrConstruct where
  notebook : String
  kind : ErrKind
  context : String
deriving DecidableEq

/-- Error-handling constructs in the notebooks, transcribed from the source:
the only one is the warnings.catch_warnings/filterwarnings block of N1 around
GCRCatalogs.load_catalog.  No notebook contains an exception handler
(no try/except appears anywhere) or a retry loop. -/
def error_constructs : List ErrConstruct :=
  [⟨"LSST_Stack_matching_code", ErrKind.warnings_suppress,
    "warnings.catch_warnings with filterwarnings ignore, around GCRCatalogs.load_catalog"⟩]

/-! ## N1: make_SourceCatalog, mag_cols and RegionSelector -/

/-- Field types of the afw table schema used by N1. -/
inductive FieldType
  | long
  | angle
  | float
deriving DecidableEq

/-- Column definition, the Coldef namedtuple of N1 (fields name, type, doc). -/
structure Coldef where
  colName : String
  colType : FieldType
  doc : String
deriving DecidableEq

/-- A record of a SourceCatalog as populated by N1: the minimal fields id,
coord_ra, coord_dec plus one magnitude value. -/
structure SourceRecord where
  recId : Nat
  coord_ra : ℚ
  coord_dec : ℚ
  mag : ℚ
deriving DecidableEq

/-- An afw SourceCatalog: a schema and a list of records. -/
structure SourceCatalog where
  schema : List Coldef
  records : List SourceRecord
deriving DecidableEq

/-- Minimal schema of afw_table.SourceTable.makeMinimalSchema: the id,
coord_ra and coord_dec fields. -/
def makeMinimalSchema : List Coldef :=
  [⟨"id", FieldType.long, "unique ID"⟩,
   ⟨"coord_ra", FieldType.angle, "position in ra/dec"⟩,
   ⟨"coord_dec", FieldType.angle, "position in ra/dec"⟩]

/-- N1 make_SourceCatalog: start from the minimal schema, add each new column,
return an empty catalog with that schema. -/
def make_SourceCatalog (new_cols : List Coldef) : SourceCatalog :=
  { schema := makeMinimalSchema ++ new_cols, records := [] }

/-- N1 mag_cols: one float magnitude column per band. -/
def mag_cols (bands : List String) : List Coldef :=
  bands.map (fun x => ⟨"mag_" ++ x, FieldType.float, x ++ "-magnitude"⟩)

/-- A row of the extragalactic galaxy catalog as queried by N1
(galaxy_id, ra_true, dec_true and the magnitude in the requested band). -/
structure Galaxy where
  galaxy_id : Nat
  ra_true : ℚ
  dec_true : ℚ
  mag : ℚ
deriving DecidableEq

/-- The GCR get_quantities call of RegionSelector with the magnitude filter
string "mag_true_band_lsst < max_mag": the rows passing the cut. -/
def gc_get_quantities (gc : List Galaxy) (max_mag : ℚ) : List Galaxy :=
  gc.filter (fun g => decide (g.mag < max_mag))

/-- State owned by a RegionSelector object: the ra_range and dec_range pairs
set by its method _set_coord_range. -/
structure RegionState where
  ra_range : ℚ × ℚ
  dec_range : ℚ × ℚ
deriving DecidableEq

/-- Python min over a nonempty list (first element, folded with min). -/
def listMinQ : List ℚ → ℚ
  | [] => 0
  | x :: xs => xs.foldl min x

/-- Python max over a nonempty list (first element, folded with max). -/
def listMaxQ : List ℚ → ℚ
  | [] => 0
  | x :: xs => xs.foldl max x

/-- N1 RegionSelector set_coord_range: map each corner of the bounding box to
sky coordinates with wcs.pixelToSky, collect the ra and dec values, and store
ra_range = (min, max) and dec_range = (min, max).  The pixel-to-sky transform
of the external WCS library is a parameter. -/
def set_coord_range (pixelToSky : ℚ × ℚ → ℚ × ℚ) (corners : List (ℚ × ℚ)) : RegionState :=
  let skyCoords := corners.map pixelToSky
  let ra_values := skyCoords.map Prod.fst
  let dec_values := skyCoords.map Prod.snd
  { ra_range := (listMinQ ra_values, listMaxQ ra_values),
    dec_range := (listMinQ dec_values, listMaxQ dec_values) }

/-- N1 RegionSelector call method: retrieve the galaxy columns with the
magnitude filter, rotate ra_true/dec_true with the field rotator (a parameter,
implemented by the repository module Matching.fieldRotator), select with
np.where the galaxies strictly inside ra_range and dec_range, and fill a
SourceCatalog (minimal schema plus the one magnitude column of the band) with
one record per selected galaxy. -/
def RegionSelector_call (rotate : ℚ → ℚ → ℚ × ℚ) (s : RegionState)
    (gc : List Galaxy) (band : String) (max_mag : ℚ) : SourceCatalog :=
  let gc_cols := gc_get_quantities gc max_mag
  let rotated := gc_cols.map (fun g => (g, rotate g.ra_true g.dec_true))
  let selected := rotated.filter (fun p =>
    decide (s.ra_range.1 < p.2.1) && decide (p.2.1 < s.ra_range.2) &&
    decide (s.dec_range.1 < p.2.2) && decide (p.2.2 < s.dec_range.2))
  { make_SourceCatalog (mag_cols [band]) with
    records := selected.map (fun p => ⟨p.1.galaxy_id, p.2.1, p.2.2, p.1.mag⟩) }

/-- Invariant of the RegionSelector state: each coordinate range is an ordered
pair, first component at most the second. -/
def region_state_invariant (s : RegionState) : Prop :=
  s.ra_range.1 ≤ s.ra_range.2 ∧ s.dec_range.1 ≤ s.dec_range.2

instance (s : RegionState) : Decidable (region_state_invariant s) := by
  unfold region_state_invariant; infer_instance

/-! ## N2: row filters of the truth-catalog notebook -/

/-- Captured constant center_ra = 54.6 of N2. -/
def center_ra : ℚ := 54.6

/-- Captured constant center_dec = -28.0 of N2. -/
def center_dec : ℚ := -28.0

/-- Captured constant radius = 0.2 of N2. -/
def radius_deg : ℚ := 0.2

/-- N2 filter_on_healpix: for an input array hp, the boolean array whose i-th
element records whether hp[i] occurs in the captured list_of_healpix (the
result of healpy.query_disc, a parameter here). -/
def filter_on_healpix (list_of_healpix : List Nat) (hp : List Nat) : List Bool :=
  hp.map (fun hh => decide (hh ∈ list_of_healpix))

/-- N2 filter_on_dist: elementwise test that the angular separation of
(ra[i], dec[i]) from the captured center is strictly below the captured
radius.  The angularSeparation routine of the external lsst.sims.utils
package is a parameter. -/
def filter_on_dist (angularSeparation : ℚ → ℚ → ℚ → ℚ → ℚ)
    (ra dec : List ℚ) : List Bool :=
  List.zipWith (fun r d => decide (angularSeparation r d center_ra center_dec < radius_deg))
    ra dec

/-! ## N4: the group-count histogram of the truth/coadd matching notebook -/

/-- A row of the astropy table returned by FoFCatalogMatching.match:
row_index into the original catalog, catalog_key (truth or coadd), and the
friends-of-friends group id. -/
structure ResultRow where
  row_index : Nat
  catalog_key : String
  group_id : Nat
deriving DecidableEq

/-- Maximum of a list of naturals (0 on the empty list; the notebook only
applies it to nonempty arrays). -/
def listMax : List Nat → Nat
  | [] => 0
  | x :: xs => Nat.max x (listMax xs)

/-- Length of the np.bincount result: the larger of minlength and
(greatest value in the input) + 1, and 0 adds nothing for an empty input. -/
def bincountLen (xs : List Nat) (minlength : Nat) : Nat :=
  Nat.max minlength (xs.foldr (fun a b => Nat.max (a + 1) b) 0)

/-- np.bincount: entry i counts the occurrences of i in the input. -/
def bincount (xs : List Nat) (minlength : Nat) : List Nat :=
  (List.range (bincountLen xs minlength)).map (fun i => xs.count i)

/-- Rows of the FoF result coming from the truth catalog (truth_mask). -/
def truth_rows (rs : List ResultRow) : List ResultRow :=
  rs.filter (fun r => r.catalog_key == "truth")

/-- Rows of the FoF result coming from the coadd catalog (coadd_mask,
the complement of truth_mask). -/
def coadd_rows (rs : List ResultRow) : List ResultRow :=
  rs.filter (fun r => !(r.catalog_key == "truth"))

/-- N4: n_groups = results['group_id'].max() + 1. -/
def n_groups (rs : List ResultRow) : Nat :=
  listMax (rs.map (fun r => r.group_id)) + 1

/-- N4: n_truth = np.bincount(results['group_id'][truth_mask], minlength=n_groups). -/
def n_truth (rs : List ResultRow) : List Nat :=
  bincount ((truth_rows rs).map (fun r => r.group_id)) (n_groups rs)

/-- N4: n_coadd = np.bincount(results['group_id'][coadd_mask], minlength=n_groups). -/
def n_coadd (rs : List ResultRow) : List Nat :=
  bincount ((coadd_rows rs).map (fun r => r.group_id)) (n_groups rs)

/-- N4: n_max = max(n_truth.max(), n_coadd.max()) + 1. -/
def n_max (rs : List ResultRow) : Nat :=
  Nat.max (listMax (n_truth rs)) (listMax (n_coadd rs)) + 1

/-- N4: the flat array np.bincount(n_coadd * n_max + n_truth,
minlength=n_max*n_max), the element-wise encoding being a zipWith. -/
def hist_2d_flat (rs : List ResultRow) : List Nat :=
  bincount (List.zipWith (fun c t => c * n_max rs + t) (n_coadd rs) (n_truth rs))
    (n_max rs * n_max rs)

/-- N4: hist_2d after .reshape(n_max, n_max), read at row c (coadd count) and
column t (truth count), row-major. -/
def hist_2d (rs : List ResultRow) (c t : Nat) : Nat :=
  (hist_2d_flat rs).getD (c * n_max rs + t) 0

/-! ## N4: the left merge checked by assert_array_equal -/

/-- Left merge of pandas restricted to the two id columns: each object_id of
the left table is joined with every equal galaxy_id of the right table, or
with none (an absent galaxy_id) when the right table has no match.  Modelled
from the documented behavior of pd.merge with how left, left_on object_id,
right_on galaxy_id, as invoked by N4. -/
def left_merge_ids (object_ids : List Nat) (extra_ids : List Nat) : List (Nat × Option Nat) :=
  object_ids.flatMap (fun oid =>
    let ms := extra_ids.filter (fun g => g == oid)
    if ms.isEmpty then [(oid, none)] else ms.map (fun g => (oid, some g)))

/-! ## N5: SNR selections of the coadd-catalogs notebook -/

/-- A row of the merged tract-patch dataframe of N5, with the columns the
selections read. -/
structure CoaddRow where
  g_mag : ℚ
  r_mag : ℚ
  i_mag : ℚ
  g_mag_err : ℚ
  r_mag_err : ℚ
  base_ClassificationExtendedness_value : ℚ
deriving DecidableEq

/-- N5: snr_threshold = 25. -/
def snr_threshold : ℚ := 25

/-- N5: bright_snr_threshold = 100. -/
def bright_snr_threshold : ℚ := 100

/-- N5: good_snr = df[(df['g_mag_err'] < 1/25) & (df['r_mag_err'] < 1/25)]. -/
def good_snr (df : List CoaddRow) : List CoaddRow :=
  df.filter (fun r =>
    decide (r.g_mag_err < 1 / snr_threshold) && decide (r.r_mag_err < 1 / snr_threshold))

/-- N5: bright_stars = df[(df['g_mag_err'] < 1/100) & (df['r_mag_err'] < 1/100)]. -/
def bright_stars (df : List CoaddRow) : List CoaddRow :=
  df.filter (fun r =>
    decide (r.g_mag_err < 1 / bright_snr_threshold) &&
    decide (r.r_mag_err < 1 / bright_snr_threshold))

/-! ## Helper lemmas -/

/-- Reading an index below n out of a map over List.range n gives the function
value at that index. -/
theorem getD_map_range {α : Type} (f : Nat → α) (d : α) (n i : Nat) (h : i < n) :
    ((List.range n).map f).getD i d = f i := by
  have hlen : i < ((List.range n).map f).length := by simpa using h
  rw [List.getD_eq_getElem _ d hlen]
  simp

/-- Reading a map below the source length evaluates the function at the source
entry. -/
theorem getD_map_lt {α β : Type} (g : α → β) (l : List α) (d0 : α) (d : β) (i : Nat)
    (h : i < l.length) :
    (l.map g).getD i d = g (l.getD i d0) := by
  have hlen : i < (l.map g).length := by simpa using h
  rw [List.getD_eq_getElem _ d hlen, List.getD_eq_getElem _ d0 h]
  simp

/-- A zipWith of two lists of length n is the map over List.range n of the
entries combined position by position. -/
theorem zipWith_eq_range_map {α β γ : Type} (f : α → β → γ) (da : α) (db : β) :
    ∀ (n : Nat) (as : List α) (bs : List β), as.length = n → bs.length = n →
      List.zipWith f as bs
        = (List.range n).map (fun i => f (as.getD i da) (bs.getD i db)) := by
  intro n
  induction n with
  | zero =>
    intro as bs ha hb
    rw [List.length_eq_zero.mp ha, List.length_eq_zero.mp hb]
    simp
  | succ n ih =>
    intro as bs ha hb
    cases as with
    | nil => simp at ha
    | cons a as1 =>
      cases bs with
      | nil => simp at hb
      | cons b bs1 =>
        have ha1 : as1.length = n := by simpa using ha
        have hb1 : bs1.length = n := by simpa using hb
        rw [List.zipWith_cons_cons, List.range_succ_eq_map, List.map_cons, List.map_map]
        have hhead : f ((a :: as1).getD 0 da) ((b :: bs1).getD 0 db) = f a b := by
          simp
        have htail :
            (List.range n).map
                ((fun i => f ((a :: as1).getD i da) ((b :: bs1).getD i db)) ∘ Nat.succ)
              = (List.range n).map (fun i => f (as1.getD i da) (bs1.getD i db)) := by
          apply List.map_congr_left
          intro i _
          simp [Function.comp, List.getD_cons_succ]
        rw [hhead, htail, ih as1 bs1 ha1 hb1]

/-- Every member of a list of naturals is at most its listMax. -/
theorem mem_le_listMax {xs : List Nat} {x : Nat} (h : x ∈ xs) : x ≤ listMax xs := by
  induction xs with
  | nil => cases h
  | cons y ys ih =>
    rcases List.mem_cons.mp h with rfl | hmem
    · exact Nat.le_max_left _ _
    · exact Nat.le_trans (ih hmem) (Nat.le_max_right _ _)

/-- Reading any index of a list of naturals with default 0 stays at most the
listMax. -/
theorem getD_le_listMax (xs : List Nat) (i : Nat) : xs.getD i 0 ≤ listMax xs := by
  induction xs generalizing i with
  | nil => simp [listMax]
  | cons y ys ih =>
    cases i with
    | zero => simp [listMax, List.getD_cons_zero, Nat.le_max_left]
    | succ j =>
      rw [List.getD_cons_succ]
      exact Nat.le_trans (ih j) (by simp [listMax, Nat.le_max_right])

/-- The successor-fold used by bincountLen is bounded by any strict bound on
the list entries. -/
theorem foldr_succ_max_le {xs : List Nat} {m : Nat} (h : ∀ x ∈ xs, x < m) :
    xs.foldr (fun a b => Nat.max (a + 1) b) 0 ≤ m := by
  induction xs with
  | nil => exact Nat.zero_le m
  | cons y ys ih =>
    simp only [List.foldr_cons]
    exact Nat.max_le.mpr ⟨h y (List.mem_cons_self y ys), ih fun x hx => h x (List.mem_cons_of_mem y hx)⟩

/-- When every entry is strictly below minlength, bincount has length exactly
minlength. -/
theorem bincountLen_eq {xs : List Nat} {m : Nat} (h : ∀ x ∈ xs, x < m) :
    bincountLen xs m = m :=
  Nat.max_eq_left (foldr_succ_max_le h)

/-- Length of a bincount. -/
theorem bincount_length (xs : List Nat) (m : Nat) :
    (bincount xs m).length = bincountLen xs m := by
  simp [bincount]

/-- A bincount entry below the length is the count of its index in the input. -/
theorem bincount_getD (xs : List Nat) (m i : Nat) (h : i < bincountLen xs m) :
    (bincount xs m).getD i 0 = xs.count i :=
  getD_map_range _ 0 _ i h

/-- A count of a value in a mapped list is a countP of the preimages. -/
theorem count_map_countP {α : Type} (e : α → Nat) (l : List α) (v : Nat) :
    (l.map e).count v = l.countP (fun x => e x == v) := by
  induction l with
  | nil => rfl
  | cons a l ih => simp [List.count_cons, List.countP_cons, ih]

/-- Uniqueness of the base-n digit encoding used by the hist_2d computation:
with both low digits strictly below n, equal encodings force equal digits. -/
theorem encode_inj {n a b c d : Nat} (hb : b < n) (hd : d < n) :
    a * n + b = c * n + d ↔ a = c ∧ b = d := by
  constructor
  · intro h
    have hn : 0 < n := Nat.lt_of_le_of_lt (Nat.zero_le b) hb
    have hmod : b = d := by
      have h1 : (a * n + b) % n = b := by
        rw [Nat.add_comm, Nat.add_mul_mod_self_right, Nat.mod_eq_of_lt hb]
      have h2 : (c * n + d) % n = d := by
        rw [Nat.add_comm, Nat.add_mul_mod_self_right, Nat.mod_eq_of_lt hd]
      rw [← h1, ← h2, h]
    subst hmod
    refine ⟨?_, rfl⟩
    exact Nat.eq_of_mul_eq_mul_right hn (Nat.add_right_cancel h)
  · rintro ⟨rfl, rfl⟩
    rfl

/-- Folding min from a smaller seed stays below folding max from a larger
seed. -/
theorem foldl_min_le_foldl_max (xs : List ℚ) :
    ∀ a b : ℚ, a ≤ b → xs.foldl min a ≤ xs.foldl max b := by
  induction xs with
  | nil => intro a b h; simpa using h
  | cons y ys ih =>
    intro a b h
    simp only [List.foldl_cons]
    exact ih _ _ (le_trans (min_le_left a y) (le_trans h (le_max_left b y)))

/-- Python min of a nonempty list is at most Python max of the same list. -/
theorem listMinQ_le_listMaxQ (xs : List ℚ) (h : xs ≠ []) : listMinQ xs ≤ listMaxQ xs := by
  cases xs with
  | nil => exact absurd rfl h
  | cons x ys => exact foldl_min_le_foldl_max ys x x le_rfl

/-- The state produced by set_coord_range always satisfies the ordered-range
invariant: each stored range is (min, max) of the corner coordinates. -/
theorem set_coord_range_ordered (pixelToSky : ℚ × ℚ → ℚ × ℚ)
    (corners : List (ℚ × ℚ)) (h : corners ≠ []) :
    region_state_invariant (set_coord_range pixelToSky corners) := by
  constructor
  · exact listMinQ_le_listMaxQ _ (by simp only [ne_eq, List.map_eq_nil_iff]; exact h)
  · exact listMinQ_le_listMaxQ _ (by simp only [ne_eq, List.map_eq_nil_iff]; exact h)

/-- Every group id of a subset of the FoF result rows is strictly below
n_groups. -/
theorem sub_group_id_lt (rs : List ResultRow) (p : ResultRow → Bool) :
    ∀ x ∈ (rs.filter p).map (fun r => r.group_id), x < n_groups rs := by
  intro x hx
  rw [List.mem_map] at hx
  obtain ⟨r, hr, rfl⟩ := hx
  have hmem : r.group_id ∈ rs.map (fun r => r.group_id) :=
    List.mem_map.mpr ⟨r, (List.mem_filter.mp hr).1, rfl⟩
  exact Nat.lt_succ_of_le (mem_le_listMax hmem)

/-- The n_truth array has length n_groups. -/
theorem n_truth_length (rs : List ResultRow) : (n_truth rs).length = n_groups rs := by
  rw [n_truth, bincount_length, truth_rows]
  exact bincountLen_eq (sub_group_id_lt rs _)

/-- The n_coadd array has length n_groups. -/
theorem n_coadd_length (rs : List ResultRow) : (n_coadd rs).length = n_groups rs := by
  rw [n_coadd, bincount_length, coadd_rows]
  exact bincountLen_eq (sub_group_id_lt rs _)

/-- Every per-group truth count is strictly below n_max. -/
theorem n_truth_getD_lt (rs : List ResultRow) (g : Nat) :
    (n_truth rs).getD g 0 < n_max rs := by
  rw [n_max]
  exact Nat.lt_succ_of_le (Nat.le_trans (getD_le_listMax _ g) (Nat.le_max_left _ _))

/-- Every per-group coadd count is strictly below n_max. -/
theorem n_coadd_getD_lt (rs : List ResultRow) (g : Nat) :
    (n_coadd rs).getD g 0 < n_max rs := by
  rw [n_max]
  exact Nat.lt_succ_of_le (Nat.le_trans (getD_le_listMax _ g) (Nat.le_max_right _ _))

/-! ## Claim C1 -/

/-- C1, counterexample.  The claim states that every positional matching,
friends-of-friends grouping and coordinate-transform operation performed by
any notebook is a call into an external library, with no such algorithm
implemented inside this repository.  This fails concretely at the
FieldRotator.transform operation of N1: its provider is the repository module
Matching.fieldRotator, which the notebook text says is included in the
repository instead of being imported from the external
sims_GCRCatSimInterface package. -/
theorem claim1_counterexample :
    ¬ (∀ op ∈ heavy_ops, op.provider_in_repo = false) := by
  intro h
  exact absurd (h fieldRotator_op (by decide)) (by decide)

/-- C1, amended.  Every positional-matching and friends-of-friends operation
of the notebooks is a call into an external library, and so is every
coordinate-transform operation except the protoDC2 field rotation, whose
FieldRotator implementation is the repository module Matching.fieldRotator. -/
theorem claim1_heavy_ops_amended :
    ∀ op ∈ heavy_ops,
      ((op.kind = AlgKind.positional_matching ∨ op.kind = AlgKind.fof_grouping) →
        op.provider_in_repo = false) ∧
      (op.provider_in_repo = true →
        op.opName = "FieldRotator.transform" ∧ op.provider = "Matching.fieldRotator") := by
  decide

/-- C1, witness: the amended statement instantiated at the matchRaDec entry. -/
theorem claim1_witness :
    (⟨"afw_table.matchRaDec", AlgKind.positional_matching, "lsst.afw.table", false⟩ : AlgOp)
        ∈ heavy_ops ∧
    ((((⟨"afw_table.matchRaDec", AlgKind.positional_matching, "lsst.afw.table", false⟩ : AlgOp).kind
          = AlgKind.positional_matching ∨
        (⟨"afw_table.matchRaDec", AlgKind.positional_matching, "lsst.afw.table", false⟩ : AlgOp).kind
          = AlgKind.fof_grouping) →
        (⟨"afw_table.matchRaDec", AlgKind.positional_matching, "lsst.afw.table", false⟩ : AlgOp).provider_in_repo
          = false) ∧
      ((⟨"afw_table.matchRaDec", AlgKind.positional_matching, "lsst.afw.table", false⟩ : AlgOp).provider_in_repo
          = true →
        (⟨"afw_table.matchRaDec", AlgKind.positional_matching, "lsst.afw.table", false⟩ : AlgOp).opName
          = "FieldRotator.transform" ∧
        (⟨"afw_table.matchRaDec", AlgKind.positional_matching, "lsst.afw.table", false⟩ : AlgOp).provider
          = "Matching.fieldRotator")) :=
  ⟨by decide, claim1_heavy_ops_amended _ (by decide)⟩

/-! ## Claim C2 -/

/-- C2, counterexample.  The claim states that every notebook loads its
catalog data through the GCR API and by no other mechanism.  It fails
concretely at the Coadd_Catalogs notebook, whose only catalog loads are
pandas read_hdf and read_table, with no GCR call at all; the LSST Stack
notebook also retrieves catalogs through the data butler. -/
theorem claim2_counterexample :
    ¬ (∀ nb ∈ notebook_loads, ∀ m ∈ nb.loads, m = LoadMech.gcr_load_catalog) := by
  intro h
  have hmem : (⟨"Coadd_Catalogs", [LoadMech.pandas_read_hdf, LoadMech.pandas_read_table]⟩ :
      NotebookLoads) ∈ notebook_loads := by decide
  have := h _ hmem LoadMech.pandas_read_hdf (by decide)
  exact absurd this (by decide)

/-- C2, amended.  Every catalog-data load of the notebooks goes through the
GCR API, except that the LSST Stack notebook also retrieves measurement
catalogs through the data butler and the Coadd_Catalogs notebook loads its
data with pandas read_hdf and read_table; every notebook other than
Coadd_Catalogs performs a GCR load_catalog call. -/
theorem claim2_loads_amended :
    (∀ nb ∈ notebook_loads, ∀ m ∈ nb.loads,
      m = LoadMech.gcr_load_catalog ∨
      (nb.notebook = "LSST_Stack_matching_code" ∧ m = LoadMech.butler_get) ∨
      (nb.notebook = "Coadd_Catalogs" ∧
        (m = LoadMech.pandas_read_hdf ∨ m = LoadMech.pandas_read_table))) ∧
    (∀ nb ∈ notebook_loads, nb.notebook ≠ "Coadd_Catalogs" →
      LoadMech.gcr_load_catalog ∈ nb.loads) := by
  constructor
  · decide
  · decide

/-- C2, witness: the amended statement instantiated at the read_hdf load of
the Coadd_Catalogs notebook. -/
theorem claim2_witness :
    (⟨"Coadd_Catalogs", [LoadMech.pandas_read_hdf, LoadMech.pandas_read_table]⟩ :
        NotebookLoads) ∈ notebook_loads ∧
    (LoadMech.pandas_read_hdf = LoadMech.gcr_load_catalog ∨
      ((⟨"Coadd_Catalogs", [LoadMech.pandas_read_hdf, LoadMech.pandas_read_table]⟩ :
          NotebookLoads).notebook = "LSST_Stack_matching_code" ∧
        LoadMech.pandas_read_hdf = LoadMech.butler_get) ∨
      ((⟨"Coadd_Catalogs", [LoadMech.pandas_read_hdf, LoadMech.pandas_read_table]⟩ :
          NotebookLoads).notebook = "Coadd_Catalogs" ∧
        (LoadMech.pandas_read_hdf = LoadMech.pandas_read_hdf ∨
          LoadMech.pandas_read_hdf = LoadMech.pandas_read_table))) :=
  ⟨by decide, claim2_loads_amended.1 _ (by decide) LoadMech.pandas_read_hdf (by decide)⟩

/-! ## Claim C3 -/

/-- C3, counterexample.  The claim states that no operation in any notebook
asserts or enforces a deterministic relation on computed data.  It fails at
the np.testing.assert_array_equal call of the truth/coadd matching notebook,
which asserts that the object_id column equals the galaxy_id column of the
merged table. -/
theorem claim3_counterexample :
    ¬ (notebook_assertions = []) := by
  decide

/-- C3, amended.  The notebooks contain exactly one asserted deterministic
contract, in the truth/coadd matching notebook: after the pandas left merge of
the matched truth objects with the extragalactic rows on object_id = galaxy_id,
assert_array_equal demands that the two id columns coincide; and that relation
indeed holds whenever every matched object_id occurs among the extragalactic
galaxy_ids. -/
theorem claim3_assertion_amended :
    notebook_assertions.length = 1 ∧
    (∀ nba ∈ notebook_assertions, nba.notebook = "Match_truth_and_coadd") ∧
    (∀ object_ids extra_ids : List Nat,
      (∀ oid ∈ object_ids, oid ∈ extra_ids) →
      ∀ p ∈ left_merge_ids object_ids extra_ids, p.2 = some p.1) := by
  refine ⟨by decide, by decide, ?_⟩
  intro object_ids extra_ids hall p hp
  rw [left_merge_ids, List.mem_flatMap] at hp
  obtain ⟨oid, hoid, hpmem⟩ := hp
  have hoe : oid ∈ extra_ids.filter (fun g => g == oid) :=
    List.mem_filter.mpr ⟨hall oid hoid, by simp⟩
  have hne : (extra_ids.filter (fun g => g == oid)).isEmpty = false := by
    rcases hcase : extra_ids.filter (fun g => g == oid) with _ | ⟨a, l⟩
    · rw [hcase] at hoe
      cases hoe
    · rfl
  simp only [hne, Bool.false_eq_true, if_false] at hpmem
  rw [List.mem_map] at hpmem
  obtain ⟨g, hg, rfl⟩ := hpmem
  have : (g == oid) = true := (List.mem_filter.mp hg).2
  have hgo : g = oid := by simpa using this
  simp [hgo]

/-- C3, witness: the merge relation instantiated at object_ids [5] and
extragalactic ids [5, 7]. -/
theorem claim3_witness :
    (∀ oid ∈ [5], oid ∈ [5, 7]) ∧
    ((5, some 5) : Nat × Option Nat) ∈ left_merge_ids [5] [5, 7] ∧
    ((5, some 5) : Nat × Option Nat).2 = some ((5, some 5) : Nat × Option Nat).1 :=
  ⟨by decide, by decide,
    claim3_assertion_amended.2.2 [5] [5, 7] (by decide) (5, some 5) (by decide)⟩

/-! ## Claim C8 -/

/-- C8: the only error-related construct in the notebooks is the
warnings-ignore context of the LSST Stack notebook around one catalog load;
no exception handler or retry appears anywhere, so every library exception
propagates unchanged. -/
theorem claim8_error_constructs :
    error_constructs.length = 1 ∧
    (∀ e ∈ error_constructs,
      e.kind = ErrKind.warnings_suppress ∧ e.notebook = "LSST_Stack_matching_code") ∧
    (∀ e ∈ error_constructs,
      e.kind ≠ ErrKind.exception_handler ∧ e.kind ≠ ErrKind.retry_loop) := by
  refine ⟨by decide, by decide, by decide⟩

/-- C8, witness: the statement instantiated at the single warnings context. -/
theorem claim8_witness :
    (⟨"LSST_Stack_matching_code", ErrKind.warnings_suppress,
      "warnings.catch_warnings with filterwarnings ignore, around GCRCatalogs.load_catalog"⟩ :
        ErrConstruct) ∈ error_constructs ∧
    ((⟨"LSST_Stack_matching_code", ErrKind.warnings_suppress,
      "warnings.catch_warnings with filterwarnings ignore, around GCRCatalogs.load_catalog"⟩ :
        ErrConstruct).kind = ErrKind.warnings_suppress ∧
      (⟨"LSST_Stack_matching_code", ErrKind.warnings_suppress,
        "warnings.catch_warnings with filterwarnings ignore, around GCRCatalogs.load_catalog"⟩ :
          ErrConstruct).notebook = "LSST_Stack_matching_code") :=
  ⟨by decide, claim8_error_constructs.2.1 _ (by decide)⟩

/-! ## Claim C9 -/

/-- C9: every row selected by the bright_stars cut (both magnitude errors
strictly below 1/100) is also selected by the good_snr cut (both strictly
below 1/25): the bright-star selection is a subset of the good-SNR
selection. -/
theorem claim9_bright_subset_good (df : List CoaddRow) (r : CoaddRow)
    (h : r ∈ bright_stars df) : r ∈ good_snr df := by
  rw [bright_stars, List.mem_filter] at h
  rw [good_snr, List.mem_filter]
  obtain ⟨hdf, hb⟩ := h
  refine ⟨hdf, ?_⟩
  simp only [Bool.and_eq_true, decide_eq_true_eq] at hb ⊢
  obtain ⟨hg, hr⟩ := hb
  have hth : (1 : ℚ) / bright_snr_threshold ≤ 1 / snr_threshold := by
    rw [bright_snr_threshold, snr_threshold]
    norm_num
  exact ⟨lt_of_lt_of_le hg hth, lt_of_lt_of_le hr hth⟩

/-- C9, witness: a concrete row with errors 1/200 and 1/300 passes both
cuts. -/
theorem claim9_witness :
    (⟨20, 19, 18, 1/200, 1/300, 0⟩ : CoaddRow)
        ∈ bright_stars [⟨20, 19, 18, 1/200, 1/300, 0⟩] ∧
    (⟨20, 19, 18, 1/200, 1/300, 0⟩ : CoaddRow)
        ∈ good_snr [⟨20, 19, 18, 1/200, 1/300, 0⟩] := by
  have hmem : (⟨20, 19, 18, 1/200, 1/300, 0⟩ : CoaddRow)
      ∈ bright_stars [⟨20, 19, 18, 1/200, 1/300, 0⟩] := by
    rw [bright_stars, List.mem_filter]
    refine ⟨List.mem_singleton.mpr rfl, ?_⟩
    simp only [Bool.and_eq_true, decide_eq_true_eq]
    norm_num [bright_snr_threshold]
  exact ⟨hmem, claim9_bright_subset_good _ _ hmem⟩

/-! ## Claim C4 -/

/-- C4, counterexample.  The claim states that no class defined in the
repository maintains state that its operations must keep consistent, such as
an ordered coordinate-range pair.  RegionSelector does: at the explicit corner
input [(2,1), (0,3), (5,0), (1,4)] its method _set_coord_range stores
ra_range = (0, 5), an ordered pair, and no input can produce an unordered
range, so the ordered-pair relation is an invariant owned by the class and
consumed by its call method. -/
theorem claim4_counterexample :
    region_state_invariant
      (set_coord_range (fun p => p) [((2 : ℚ), (1 : ℚ)), (0, 3), (5, 0), (1, 4)]) ∧
    (set_coord_range (fun p => p) [((2 : ℚ), (1 : ℚ)), (0, 3), (5, 0), (1, 4)]).ra_range
      = (0, 5) ∧
    ¬ (∃ pixelToSky : ℚ × ℚ → ℚ × ℚ, ∃ corners : List (ℚ × ℚ),
        corners ≠ [] ∧ ¬ region_state_invariant (set_coord_range pixelToSky corners)) := by
  refine ⟨by decide, by decide, ?_⟩
  rintro ⟨ps, cs, hne, hviol⟩
  exact hviol (set_coord_range_ordered ps cs hne)

/-- C4, amended.  Tabular records are passed between external library calls,
but the repository does own one stateful data model: RegionSelector, whose
_set_coord_range method stores ra_range and dec_range as (min, max) pairs over
the region corners, so that each range satisfies the ordered-pair invariant
first at most second, on which the call method's region cut relies. -/
theorem claim4_region_invariant (pixelToSky : ℚ × ℚ → ℚ × ℚ)
    (corners : List (ℚ × ℚ)) (h : corners ≠ []) :
    (set_coord_range pixelToSky corners).ra_range.1
      ≤ (set_coord_range pixelToSky corners).ra_range.2 ∧
    (set_coord_range pixelToSky corners).dec_range.1
      ≤ (set_coord_range pixelToSky corners).dec_range.2 :=
  set_coord_range_ordered pixelToSky corners h

/-- C4, witness: the invariant instantiated at a concrete corner list. -/
theorem claim4_witness :
    ([((2 : ℚ), (1 : ℚ)), (0, 3)] ≠ ([] : List (ℚ × ℚ))) ∧
    ((set_coord_range (fun p => p) [((2 : ℚ), (1 : ℚ)), (0, 3)]).ra_range.1
        ≤ (set_coord_range (fun p => p) [((2 : ℚ), (1 : ℚ)), (0, 3)]).ra_range.2 ∧
      (set_coord_range (fun p => p) [((2 : ℚ), (1 : ℚ)), (0, 3)]).dec_range.1
        ≤ (set_coord_range (fun p => p) [((2 : ℚ), (1 : ℚ)), (0, 3)]).dec_range.2) :=
  ⟨by decide, claim4_region_invariant _ _ (by decide)⟩

/-! ## Claim C5 -/

/-- C5: provided the RegionSelector state was set by _set_coord_range (so each
range is an ordered pair), every record of the SourceCatalog returned by the
call method has its magnitude strictly below max_mag and its rotated ra and
dec strictly inside the open ra_range and dec_range intervals, and the
returned schema is exactly the minimal fields plus one float column named
mag_<band>. -/
theorem claim5_region_selector_call
    (rotate : ℚ → ℚ → ℚ × ℚ) (s : RegionState) (_hs : region_state_invariant s)
    (gc : List Galaxy) (band : String) (max_mag : ℚ) :
    (∀ rec ∈ (RegionSelector_call rotate s gc band max_mag).records,
      rec.mag < max_mag ∧
      s.ra_range.1 < rec.coord_ra ∧ rec.coord_ra < s.ra_range.2 ∧
      s.dec_range.1 < rec.coord_dec ∧ rec.coord_dec < s.dec_range.2) ∧
    (RegionSelector_call rotate s gc band max_mag).schema
      = makeMinimalSchema ++ [⟨"mag_" ++ band, FieldType.float, band ++ "-magnitude"⟩] := by
  constructor
  · intro rec hrec
    simp only [RegionSelector_call] at hrec
    rw [List.mem_map] at hrec
    obtain ⟨p, hpsel, hrecp⟩ := hrec
    rw [List.mem_filter] at hpsel
    obtain ⟨hpmem, hbounds⟩ := hpsel
    rw [List.mem_map] at hpmem
    obtain ⟨g, hg, hpg⟩ := hpmem
    rw [gc_get_quantities, List.mem_filter] at hg
    have hmag : g.mag < max_mag := by
      have := hg.2
      simpa using this
    simp only [Bool.and_eq_true, decide_eq_true_eq] at hbounds
    obtain ⟨⟨⟨h1, h2⟩, h3⟩, h4⟩ := hbounds
    subst hrecp
    subst hpg
    exact ⟨hmag, h1, h2, h3, h4⟩
  · simp [RegionSelector_call, make_SourceCatalog, mag_cols]

/-- C5, witness: a concrete state, identity rotator and one-galaxy catalog. -/
theorem claim5_witness :
    region_state_invariant (⟨((0 : ℚ), (10 : ℚ)), ((0 : ℚ), (10 : ℚ))⟩ : RegionState) ∧
    ((∀ rec ∈ (RegionSelector_call (fun a b => (a, b))
          (⟨((0 : ℚ), (10 : ℚ)), ((0 : ℚ), (10 : ℚ))⟩ : RegionState)
          [⟨7, 2, 3, 20⟩] "r" 24).records,
        rec.mag < 24 ∧
        (⟨((0 : ℚ), (10 : ℚ)), ((0 : ℚ), (10 : ℚ))⟩ : RegionState).ra_range.1 < rec.coord_ra ∧
        rec.coord_ra < (⟨((0 : ℚ), (10 : ℚ)), ((0 : ℚ), (10 : ℚ))⟩ : RegionState).ra_range.2 ∧
        (⟨((0 : ℚ), (10 : ℚ)), ((0 : ℚ), (10 : ℚ))⟩ : RegionState).dec_range.1 < rec.coord_dec ∧
        rec.coord_dec < (⟨((0 : ℚ), (10 : ℚ)), ((0 : ℚ), (10 : ℚ))⟩ : RegionState).dec_range.2) ∧
      (RegionSelector_call (fun a b => (a, b))
          (⟨((0 : ℚ), (10 : ℚ)), ((0 : ℚ), (10 : ℚ))⟩ : RegionState)
          [⟨7, 2, 3, 20⟩] "r" 24).schema
        = makeMinimalSchema ++ [⟨"mag_" ++ "r", FieldType.float, "r" ++ "-magnitude"⟩]) :=
  ⟨by decide, claim5_region_selector_call _ _ (by decide) _ _ _⟩

/-! ## Claim C7 -/

/-- C7: the row filters of the truth-catalog notebook are closures over fixed
captured constants.  filter_on_healpix returns a boolean array of the length
of its input whose i-th entry is true exactly when hp[i] occurs in the
captured healpix list, and for equal-length inputs filter_on_dist returns a
boolean array of the same length whose i-th entry is true exactly when the
angular separation of (ra[i], dec[i]) from the captured center (54.6, -28.0)
is strictly below the captured radius 0.2 degrees. -/
theorem claim7_row_filters (list_of_healpix : List Nat) (hp : List Nat)
    (angularSeparation : ℚ → ℚ → ℚ → ℚ → ℚ) (ra dec : List ℚ)
    (hlen : ra.length = dec.length) :
    (filter_on_healpix list_of_healpix hp).length = hp.length ∧
    (∀ i, i < hp.length →
      ((filter_on_healpix list_of_healpix hp).getD i false = true ↔
        hp.getD i 0 ∈ list_of_healpix)) ∧
    (filter_on_dist angularSeparation ra dec).length = ra.length ∧
    (∀ i, i < ra.length →
      ((filter_on_dist angularSeparation ra dec).getD i false = true ↔
        angularSeparation (ra.getD i 0) (dec.getD i 0) center_ra center_dec < radius_deg)) := by
  refine ⟨?_, ?_, ?_, ?_⟩
  · simp [filter_on_healpix]
  · intro i hi
    rw [filter_on_healpix, getD_map_lt _ _ 0 _ _ hi]
    exact decide_eq_true_iff
  · rw [filter_on_dist, zipWith_eq_range_map _ 0 0 ra.length ra dec rfl hlen.symm]
    simp
  · intro i hi
    rw [filter_on_dist, zipWith_eq_range_map _ 0 0 ra.length ra dec rfl hlen.symm,
      getD_map_range _ _ _ _ hi]
    exact decide_eq_true_iff

/-- C7, witness: concrete healpix list [3, 5], input [3, 8], a constant
angular-separation function and the arrays [1, 2], [3, 4]. -/
theorem claim7_witness :
    ([(1 : ℚ), 2].length = [(3 : ℚ), 4].length) ∧
    ((filter_on_healpix [3, 5] [3, 8]).length = [3, 8].length ∧
      (∀ i, i < [3, 8].length →
        ((filter_on_healpix [3, 5] [3, 8]).getD i false = true ↔
          [3, 8].getD i 0 ∈ [3, 5])) ∧
      (filter_on_dist (fun _ _ _ _ => 0) [(1 : ℚ), 2] [(3 : ℚ), 4]).length
        = [(1 : ℚ), 2].length ∧
      (∀ i, i < [(1 : ℚ), 2].length →
        ((filter_on_dist (fun _ _ _ _ => 0) [(1 : ℚ), 2] [(3 : ℚ), 4]).getD i false = true ↔
          (fun (_ _ _ _ : ℚ) => (0 : ℚ)) ([(1 : ℚ), 2].getD i 0) ([(3 : ℚ), 4].getD i 0)
            center_ra center_dec < radius_deg))) :=
  ⟨rfl, claim7_row_filters [3, 5] [3, 8] (fun _ _ _ _ => 0) [1, 2] [3, 4] rfl⟩

/-! ## Claim C6 -/

/-- C6: with n_max as defined by the notebook (one more than the largest
per-group count), the entry hist_2d[c][t] of the bincount-of-encoded-pairs
computation counts, for any t and c strictly below n_max, exactly the group
ids g with t truth members and c coadd members; the proof rests on the
injectivity of the encoding g to n_coadd[g] * n_max + n_truth[g] on values
below n_max. -/
theorem claim6_hist_2d_counts (rs : List ResultRow) (t c : Nat)
    (ht : t < n_max rs) (hc : c < n_max rs) :
    hist_2d rs c t =
      ((List.range (n_groups rs)).filter
        (fun g => decide ((n_truth rs).getD g 0 = t ∧ (n_coadd rs).getD g 0 = c))).length := by
  have hlt := n_truth_length rs
  have hlc := n_coadd_length rs
  have henc :
      List.zipWith (fun cc tt => cc * n_max rs + tt) (n_coadd rs) (n_truth rs)
        = (List.range (n_groups rs)).map
            (fun g => (n_coadd rs).getD g 0 * n_max rs + (n_truth rs).getD g 0) :=
    zipWith_eq_range_map _ 0 0 (n_groups rs) _ _ hlc hlt
  have hidx : c * n_max rs + t < n_max rs * n_max rs := by
    have h1 : c * n_max rs + t < (c + 1) * n_max rs := by
      rw [Nat.succ_mul]
      exact Nat.add_lt_add_left ht _
    exact Nat.lt_of_lt_of_le h1 (Nat.mul_le_mul_right _ hc)
  have hvals : ∀ v ∈ List.zipWith (fun cc tt => cc * n_max rs + tt) (n_coadd rs) (n_truth rs),
      v < n_max rs * n_max rs := by
    rw [henc]
    intro v hv
    rw [List.mem_map] at hv
    obtain ⟨g, _, rfl⟩ := hv
    have h1 : (n_coadd rs).getD g 0 * n_max rs + (n_truth rs).getD g 0
        < ((n_coadd rs).getD g 0 + 1) * n_max rs := by
      rw [Nat.succ_mul]
      exact Nat.add_lt_add_left (n_truth_getD_lt rs g) _
    exact Nat.lt_of_lt_of_le h1 (Nat.mul_le_mul_right _ (n_coadd_getD_lt rs g))
  have hlen : bincountLen
      (List.zipWith (fun cc tt => cc * n_max rs + tt) (n_coadd rs) (n_truth rs))
      (n_max rs * n_max rs) = n_max rs * n_max rs := bincountLen_eq hvals
  rw [hist_2d, hist_2d_flat, bincount_getD _ _ _ (by rw [hlen]; exact hidx), henc,
    count_map_countP]
  have hcong : (List.range (n_groups rs)).countP
      (fun g => ((n_coadd rs).getD g 0 * n_max rs + (n_truth rs).getD g 0) == (c * n_max rs + t))
      = (List.range (n_groups rs)).countP
        (fun g => decide ((n_truth rs).getD g 0 = t ∧ (n_coadd rs).getD g 0 = c)) := by
    apply List.countP_congr
    intro g _
    simp only [beq_iff_eq, decide_eq_true_eq]
    rw [encode_inj (n_truth_getD_lt rs g) ht]
    exact and_comm
  rw [hcong, List.countP_eq_length_filter]

/-- C6, witness: the FoF table with a truth and a coadd row in group 0 and a
truth-only row in group 1. -/
theorem claim6_witness :
    (1 < n_max [⟨0, "truth", 0⟩, ⟨1, "coadd", 0⟩, ⟨2, "truth", 1⟩]) ∧
    hist_2d [⟨0, "truth", 0⟩, ⟨1, "coadd", 0⟩, ⟨2, "truth", 1⟩] 1 1 =
      ((List.range (n_groups [⟨0, "truth", 0⟩, ⟨1, "coadd", 0⟩, ⟨2, "truth", 1⟩])).filter
        (fun g => decide
          ((n_truth [⟨0, "truth", 0⟩, ⟨1, "coadd", 0⟩, ⟨2, "truth", 1⟩]).getD g 0 = 1 ∧
            (n_coadd [⟨0, "truth", 0⟩, ⟨1, "coadd", 0⟩, ⟨2, "truth", 1⟩]).getD g 0 = 1))).length :=
  ⟨by decide, claim6_hist_2d_counts _ 1 1 (by decide) (by decide)⟩

end DC2
